import Mathlib

/-!
Verification of the bsky-webhook relay (tailscale/bsky-webhook).

The Go sources are shallowly embedded: Go strings that are byte-sliced
(the post text and the watch word) are modelled as `List Nat`, one entry
per byte; Go `int` byte offsets are modelled as `Int`; Go string slicing
`s[a:b]`, which panics when the bounds are out of range, is modelled by
`goSlice`, which returns `none` exactly when Go would panic.  Strings that
are only compared or concatenated (type tags, URIs, handles) stay `String`.
-/

namespace BskyWebhook

/-! ## Data model (cmd/bsky-webhook/types.go) -/

/-- BskyFacetIndex from types.go: byte range of a facet (Go `int` fields). -/
structure BskyFacetIndex where
  byteEnd : Int
  byteStart : Int
deriving Repr, DecidableEq

/-- BskyFacetFeatures from types.go: one feature of a facet.  The Go field
`Type` (JSON `$type`) is named `ftype` here because `Type` is a Lean keyword. -/
structure BskyFacetFeatures where
  ftype : String
  uri : String
  did : String
  tag : String
deriving Repr, DecidableEq

/-- BskyFacet from types.go. -/
structure BskyFacet where
  features : List BskyFacetFeatures
  index : BskyFacetIndex
deriving Repr, DecidableEq

/-- BskyTextFragment from types.go.  The Go `Features` field is a slice that
is left `nil` when the fragment carries no features; `none` models `nil`. -/
structure BskyTextFragment where
  text : List Nat
  features : Option (List BskyFacetFeatures) := none
deriving Repr, DecidableEq

/-- BskyImageRef from types.go. -/
structure BskyImageRef where
  link : String
deriving Repr, DecidableEq

/-- BskyInnerImage from types.go. -/
structure BskyInnerImage where
  ref : BskyImageRef
deriving Repr, DecidableEq

/-- BskyImage from types.go. -/
structure BskyImage where
  image : BskyInnerImage
deriving Repr, DecidableEq

/-- BskyEmbed from types.go. -/
structure BskyEmbed where
  images : List BskyImage
deriving Repr, DecidableEq

/-- BskyRecord from types.go: `text` is the raw byte string of the post,
`createdAt` the RFC3339 timestamp string. -/
structure BskyRecord where
  text : List Nat
  embed : BskyEmbed := ⟨[]⟩
  createdAt : String := ""
  facets : List BskyFacet := []
deriving Repr, DecidableEq

/-- BskyCommit from types.go; the Go pointer `*BskyRecord` is an `Option`. -/
structure BskyCommit where
  rev : String := ""
  rkey : String
  record : Option BskyRecord
  operation : String
deriving Repr, DecidableEq

/-- BskyMessage from types.go; the Go pointer `*BskyCommit` is an `Option`. -/
structure BskyMessage where
  did : String := ""
  commit : Option BskyCommit
  kind : String
  timeUs : Int := 0
deriving Repr, DecidableEq

/-- The post text of a message, `[]` when the commit or record is absent. -/
def recordText (m : BskyMessage) : List Nat :=
  match m.commit with
  | none => []
  | some c =>
    match c.record with
    | none => []
    | some r => r.text

/-- The facet list of a message, `[]` when the commit or record is absent. -/
def recordFacets (m : BskyMessage) : List BskyFacet :=
  match m.commit with
  | none => []
  | some c =>
    match c.record with
    | none => []
    | some r => r.facets

/-- The createdAt string of a message, `""` when the commit or record is absent. -/
def recordCreatedAt (m : BskyMessage) : String :=
  match m.commit with
  | none => ""
  | some c =>
    match c.record with
    | none => ""
    | some r => r.createdAt

/-! ## Byte-string helpers (Go `strings` package operations used by the code) -/

/-- Go string slicing `s[a:b]`: in range it is the byte run `[a, b)`;
out of range Go panics, modelled by `none`. -/
def goSlice (s : List Nat) (a b : Int) : Option (List Nat) :=
  if 0 ≤ a ∧ a ≤ b ∧ b ≤ (s.length : Int) then
    some ((s.take b.toNat).drop a.toNat)
  else none

/-- Whitespace bytes recognized by Go `strings.TrimSpace` (ASCII range:
space, tab, newline, vertical tab, form feed, carriage return). -/
def isSpaceByte (b : Nat) : Bool :=
  b == 32 || b == 9 || b == 10 || b == 11 || b == 12 || b == 13

/-- Model of Go `strings.TrimSpace` on the byte string: drop whitespace
bytes from both ends.  (Multi-byte Unicode spaces are not modelled; the
code only compares the trimmed result with the empty string.) -/
def trimSpace (s : List Nat) : List Nat :=
  ((s.dropWhile isSpaceByte).reverse.dropWhile isSpaceByte).reverse

/-- Does `s` start with the byte sequence `p`? -/
def startsWith : List Nat → List Nat → Bool
  | _, [] => true
  | [], _ :: _ => false
  | a :: s, b :: p => a == b && startsWith s p

/-- Model of Go `strings.Contains(s, sub)`: `sub` occurs as a contiguous
byte run inside `s`. -/
def goContains : List Nat → List Nat → Bool
  | [], sub => sub.isEmpty
  | a :: s, sub => startsWith (a :: s) sub || goContains s sub

/-! ## Segmentation engine (facetsToFragments in cmd/bsky-webhook/main.go) -/

/-- Insert a facet into a byte-start-sorted facet list, before any facet
with a strictly larger or equal start already present later in the original
order; together with `sortFacets` this is a stable insertion sort, the
model of `slices.SortStableFunc(facets, cmp by Index.ByteStart)`. -/
def insertFacet (f : BskyFacet) : List BskyFacet → List BskyFacet
  | [] => [f]
  | g :: rest =>
    if f.index.byteStart ≤ g.index.byteStart then f :: g :: rest
    else g :: insertFacet f rest

/-- Stable sort of the facets by `Index.ByteStart`, the model of the
`slices.SortStableFunc` call at the top of `facetsToFragments`. -/
def sortFacets : List BskyFacet → List BskyFacet
  | [] => []
  | f :: rest => insertFacet f (sortFacets rest)

/-- One facet's fragment contribution in the loop body of
`facetsToFragments`: when `byteStart < byteEnd` the sliced text is emitted,
without features when the slice is blank (`strings.TrimSpace` empty), with
the facet's features otherwise; a zero-width facet emits nothing.
`none` models a Go slicing panic. -/
def emitFacet (text : List Nat) (f : BskyFacet) : Option (List BskyTextFragment) :=
  if f.index.byteStart < f.index.byteEnd then
    match goSlice text f.index.byteStart f.index.byteEnd with
    | none => none
    | some fragmentText =>
      if trimSpace fragmentText == [] then
        some [{ text := fragmentText }]
      else
        some [{ text := fragmentText, features := some f.features }]
  else some []

/-- The cursor loop of `facetsToFragments`, walking the sorted facets:
a gap before the next facet is emitted plain; a facet whose start the
cursor has already passed is skipped entirely; otherwise the facet is
emitted by `emitFacet` and the cursor advances to its `byteEnd`; the
trailing text after the last facet is emitted plain.
`none` models a Go slicing panic. -/
def facetsLoop (text : List Nat) : List BskyFacet → Int → Option (List BskyTextFragment)
  | [], textCursor =>
    if textCursor < (text.length : Int) then
      match goSlice text textCursor (text.length : Int) with
      | none => none
      | some s => some [{ text := s }]
    else some []
  | f :: rest, textCursor =>
    if textCursor < f.index.byteStart then
      match goSlice text textCursor f.index.byteStart with
      | none => none
      | some gap =>
        match emitFacet text f with
        | none => none
        | some here =>
          match facetsLoop text rest f.index.byteEnd with
          | none => none
          | some tail => some (({ text := gap } : BskyTextFragment) :: here ++ tail)
    else if f.index.byteStart < textCursor then
      facetsLoop text rest textCursor
    else
      match emitFacet text f with
      | none => none
      | some here =>
        match facetsLoop text rest f.index.byteEnd with
        | none => none
        | some tail => some (here ++ tail)

/-- facetsToFragments from main.go: stable-sort the facets by byte start,
run the cursor loop from 0, and return the fragments together with the
function's error result, which is the literal `nil` of its single
`return fragments, nil`.  `none` models a Go slicing panic. -/
def facetsToFragments (m : BskyMessage) : Option (List BskyTextFragment × Option String) :=
  match facetsLoop (recordText m) (sortFacets (recordFacets m)) 0 with
  | none => none
  | some fragments => some (fragments, none)

/-! ## Rendering (featureURI and bskyMessageToSlackMarkup in main.go) -/

/-- The loop body of the `featureURI` method of `BskyTextFragment`,
verbatim from the source: the `switch` scrutinee is `feat.URI` (not the
`$type` field), and the link case returns `feat.URI` itself. -/
def featureURIGo : List BskyFacetFeatures → String
  | [] => ""
  | feat :: rest =>
    if feat.uri == "app.bsky.richtext.facet#link" then feat.uri
    else if feat.uri == "app.bsky.richtext.facet#mention" then
      "https://bsky.app/profile/" ++ feat.did
    else if feat.uri == "app.bsky.richtext.facet#tag" then
      "https://bsky.app/hashtag/" ++ feat.tag
    else featureURIGo rest

/-- featureURI method from main.go; ranging over a `nil` features slice
runs zero iterations. -/
def BskyTextFragment.featureURI (b : BskyTextFragment) : String :=
  featureURIGo (b.features.getD [])

/-- The inline feature-dispatch loop of the other `bskyMessageToSlackMarkup`
variant in main.go, verbatim: link and mention `break` out of the loop,
but the tag branch only assigns `uri` and lets the loop continue, so a
later link or mention feature overwrites a tag's URI. -/
def fragmentURILoop : List BskyFacetFeatures → String → String
  | [], uri => uri
  | feature :: rest, uri =>
    if feature.ftype == "app.bsky.richtext.facet#link" then feature.uri
    else if feature.ftype == "app.bsky.richtext.facet#mention" then
      "https://bsky.app/profile/" ++ feature.did
    else if feature.ftype == "app.bsky.richtext.facet#tag" then
      fragmentURILoop rest ("https://bsky.app/hashtag/" ++ feature.tag)
    else fragmentURILoop rest uri

/-- The bytes of a Lean string, one entry per character; faithful to Go's
UTF-8 bytes on the ASCII literals the code uses. -/
def strBytes (s : String) : List Nat := s.data.map Char.toNat

/-- One fragment of the markup built by `bskyMessageToSlackMarkup`:
`<uri|text>` when `featureURI` resolves a non-empty URI, plain text
otherwise. -/
def renderFragment (frag : BskyTextFragment) : List Nat :=
  let uri := frag.featureURI
  if uri ≠ "" then
    strBytes "<" ++ strBytes uri ++ strBytes "|" ++ frag.text ++ strBytes ">"
  else frag.text

/-- bskyMessageToSlackMarkup from main.go: segment the record text, return
the error when segmentation reports one, otherwise concatenate the rendered
fragments.  `none` models a Go slicing panic inside segmentation. -/
def bskyMessageToSlackMarkup (msg : BskyMessage) : Option (List Nat × Option String) :=
  match facetsToFragments msg with
  | none => none
  | some (_, some err) => some ([], some err)
  | some (fragments, none) => some ((fragments.map renderFragment).flatten, none)

/-! ## Event decoder (readJetstreamMessage in main.go) -/

/-- Outcome of `readJetstreamMessage` for one decoded frame. -/
inductive FrameOutcome where
  | frameError
  | ignored
  | dispatched
deriving Repr, DecidableEq

/-- The eligibility rejection of readJetstreamMessage, verbatim:
`Kind != "commit" || Commit == nil || Operation != "create" ||
Record == nil || Rkey == ""`. -/
def ignoreMessageB (m : BskyMessage) : Bool :=
  m.kind != "commit" ||
    (match m.commit with
     | none => true
     | some c => c.operation != "create" || c.record.isNone || c.rkey == "")

/-- readJetstreamMessage from main.go, from the eligibility filter onward
(decompression and JSON decoding of the raw frame happen before the message
value exists and are not modelled): ineligible frames are silently ignored,
then `strings.Contains(record.Text, watchWord)` decides dispatch. -/
def readJetstreamMessage (watchWord : List Nat) (m : BskyMessage) : FrameOutcome :=
  if ignoreMessageB m then .ignored
  else if goContains (recordText m) watchWord then .dispatched
  else .ignored

/-- The staleness window of the event decoder, 24 hours in seconds. -/
def stalenessWindowSeconds : Int := 24 * 60 * 60

/-- Modelled from the spec: the staleness filter of the event decoder is
missing from the code under src (only the `CreatedAt string` declaration
with its RFC3339 comment remains in types.go).  Per the spec, after the
eligibility filter the decoder parses `record.createdAt` (the parser is the
`parseRFC3339` parameter, yielding epoch seconds); an unparsable value is
a per-frame error, a value more than 24 hours older than decode time is
silently ignored, and otherwise the keyword filter of the source decides
dispatch. -/
def readJetstreamMessageStale (parseRFC3339 : String → Option Int) (now : Int)
    (watchWord : List Nat) (m : BskyMessage) : FrameOutcome :=
  if ignoreMessageB m then .ignored
  else
    match parseRFC3339 (recordCreatedAt m) with
    | none => .frameError
    | some createdAt =>
      if stalenessWindowSeconds < now - createdAt then .ignored
      else if goContains (recordText m) watchWord then .dispatched
      else .ignored

/-! ## Connection supervisor (main and websocketConnection in main.go) -/

/-- How one call of `websocketConnection` ends: `fatalExit` models
`log.Fatal`, which terminates the whole process; `connError` models an
error returned to the retry loop in `main`, which logs it, sleeps the
fixed delay and redials. -/
inductive ConnOutcome where
  | fatalExit (context : String)
  | connError (context : String)
deriving Repr, DecidableEq

/-- websocketConnection from main.go, over the outcomes of its external
calls: a jetstream dial failure is returned as an error; a bluesky dial or
login failure hits `log.Fatal`; otherwise the read loop runs until a read
error, which is returned (per-frame decode errors only `continue`). -/
def websocketConnection (wsDial : Except String Unit) (bskyDial : Except String Unit)
    (login : Except String Unit) (readLoopError : String) : ConnOutcome :=
  match wsDial with
  | .error e => .connError ("dial jetstream: " ++ e)
  | .ok _ =>
    match bskyDial with
    | .error e => .fatalExit ("dial bsky: " ++ e)
    | .ok _ =>
      match login with
      | .error e => .fatalExit ("login bsky: " ++ e)
      | .ok _ => .connError readLoopError

/-- The fixed list of public jetstream endpoints from main.go. -/
def jetstreams : List String :=
  ["jetstream1.us-east.bsky.network",
   "jetstream2.us-east.bsky.network",
   "jetstream1.us-west.bsky.network",
   "jetstream2.us-west.bsky.network"]

/-- One call of the closure returned by `nextWSAddress` when no override is
set: return `jetstreams[cur]`, then advance `cur`, wrapping to 0 past the
end. -/
def nextWSAddressStep (cur : Nat) : String × Nat :=
  let out := jetstreams.getD cur ""
  let next := cur + 1
  (out, if jetstreams.length ≤ next then 0 else next)

/-- The rotation state (`cur`) before the nth call, starting from 0. -/
def wsAddressState : Nat → Nat
  | 0 => 0
  | n + 1 => (nextWSAddressStep (wsAddressState n)).2

/-- nextWSAddress from main.go as a function of the dial-attempt number
(0-based): with a non-empty override address the closure always returns
it; otherwise the nth call returns the endpoint of the rotating cursor. -/
def nextWSAddress (addr : String) (n : Nat) : String :=
  if addr != "" then addr
  else (nextWSAddressStep (wsAddressState n)).1

/-! ## Outbound webhook message (sendToSlack in main.go) -/

/-- SlackAttachment from types.go (including the declared `ts` field). -/
structure SlackAttachment where
  authorName : String
  authorIcon : String
  authorLink : String
  text : List Nat
  imageUrl : String
  footer : String := ""
  ts : String
deriving Repr, DecidableEq

/-- The profile fields of the bluesky client used by sendToSlack. -/
structure BskyProfile where
  name : String
  handle : String
  avatarURL : String
deriving Repr, DecidableEq

/-- Hex digit characters used for percent escaping. -/
def hexDigitChar (n : Nat) : Char :=
  "0123456789ABCDEF".data.getD n '0'

/-- Model of Go's `shouldEscape(c, encodePathSegment)`: alphanumerics,
`-._~` and the sub-delims `$&+:=@` pass through, everything else (notably
`/;,?`) is percent-escaped. -/
def shouldEscapeByte (b : Nat) : Bool :=
  if (97 ≤ b && b ≤ 122) || (65 ≤ b && b ≤ 90) || (48 ≤ b && b ≤ 57) then false
  else if b == 45 || b == 95 || b == 46 || b == 126 then false
  else if b == 36 || b == 38 || b == 43 || b == 58 || b == 61 || b == 64 then false
  else true

/-- Model of Go `url.PathEscape` on the ASCII strings the code escapes:
percent-escape every byte `shouldEscapeByte` accepts. -/
def pathEscape (s : String) : String :=
  String.mk (((s.data.map Char.toNat).map (fun b =>
    if shouldEscapeByte b then ['%', hexDigitChar (b / 16), hexDigitChar (b % 16)]
    else [Char.ofNat b])).flatten)

/-- toURL method of BskyMessage from types.go: the canonical post URL from
the author (the handle when given, the DID otherwise) and the record key. -/
def BskyMessage.toURL (m : BskyMessage) (handle : Option String) : String :=
  let author := match handle with | none => m.did | some h => h
  let rkey := match m.commit with | none => "" | some c => c.rkey
  "https://bsky.app/profile/" ++ pathEscape author ++ "/post/" ++ pathEscape rkey

/-- The attachment built by sendToSlack in main.go; all fields but `ts`
follow the source construction.  The `ts` field is Modelled from the spec:
the source `sendToSlack` under src never populates the declared `Ts` field,
and per the spec the timestamp is the record's parsed creation time
(`createdAtEpochSeconds`, as produced by the createdAt parse of the
decoder) expressed as epoch seconds. -/
def sendToSlackAttachment (m : BskyMessage) (imageURL : String) (profile : BskyProfile)
    (createdAtEpochSeconds : Int) : SlackAttachment :=
  { authorName := profile.name ++ " (@" ++ profile.handle ++ ")"
    authorIcon := profile.avatarURL
    authorLink := "https://bsky.app/profile/" ++ profile.handle
    text := recordText m ++ strBytes "\n<" ++ strBytes (m.toURL (some profile.handle))
              ++ strBytes "|View post on Bluesky ↗>"
    imageUrl := imageURL
    footer := ""
    ts := toString createdAtEpochSeconds }

/-! ## Spec-side notions used to state the claims -/

/-- ASCII lowercasing of one byte, used to state the spec's notion of a
case-insensitive match. -/
def toLowerByte (b : Nat) : Nat := if 65 ≤ b && b ≤ 90 then b + 32 else b

/-- Follows the spec's words (claim C2): the text contains the watch word
"in any letter case", i.e. after ASCII lowercasing of both. -/
def specCaseInsensitiveContains (s sub : List Nat) : Bool :=
  goContains (s.map toLowerByte) (sub.map toLowerByte)

/-- A facet whose byte range lies inside the text: the invariant
`0 ≤ byteStart ≤ byteEnd ≤ len(text_bytes)` of the data model. -/
def ValidFacet (text : List Nat) (f : BskyFacet) : Prop :=
  0 ≤ f.index.byteStart ∧ f.index.byteStart ≤ f.index.byteEnd ∧
    f.index.byteEnd ≤ (text.length : Int)

instance (text : List Nat) (f : BskyFacet) : Decidable (ValidFacet text f) := by
  unfold ValidFacet; infer_instance

/-- A message with one valid, pre-sorted link facet, used by the C5
witness. -/
def exampleSortedMessage : BskyMessage :=
  { did := "did:plc:w", kind := "commit",
    commit := some
      { rkey := "k",
        record := some
          { text := strBytes "hi tailscale!",
            facets := [{ features := [{ ftype := "app.bsky.richtext.facet#link",
                                        uri := "https://tailscale.com/", did := "",
                                        tag := "" }],
                         index := { byteEnd := 12, byteStart := 3 } }] },
        operation := "create" } }

/-- A message whose facets are in range but unsorted and overlapping, used
by the C10 witness. -/
def exampleUnsortedMessage : BskyMessage :=
  { did := "did:plc:w2", kind := "commit",
    commit := some
      { rkey := "k2",
        record := some
          { text := strBytes "tailscale everywhere",
            facets := [{ features := [{ ftype := "app.bsky.richtext.facet#tag", uri := "",
                                        did := "", tag := "b" }],
                         index := { byteEnd := 20, byteStart := 10 } },
                       { features := [{ ftype := "app.bsky.richtext.facet#tag", uri := "",
                                        did := "", tag := "a" }],
                         index := { byteEnd := 15, byteStart := 0 } }] },
        operation := "create" } }

/-! ## Substring search characterization -/

/-- `startsWith s p` holds exactly when `p` is an initial run of `s`. -/
theorem startsWith_iff : ∀ (s p : List Nat), startsWith s p = true ↔ ∃ t, s = p ++ t
  | s, [] => by simp [startsWith]
  | [], b :: p => by simp [startsWith]
  | a :: s, b :: p => by
    simp only [startsWith, Bool.and_eq_true, beq_iff_eq, List.cons_append, List.cons.injEq]
    constructor
    · rintro ⟨rfl, h⟩
      obtain ⟨t, rfl⟩ := (startsWith_iff s p).1 h
      exact ⟨t, rfl, rfl⟩
    · rintro ⟨t, rfl, h2⟩
      exact ⟨rfl, (startsWith_iff s p).2 ⟨t, h2⟩⟩

/-- `goContains s sub` holds exactly when `sub` occurs contiguously in `s`. -/
theorem goContains_iff (s sub : List Nat) :
    goContains s sub = true ↔ ∃ pre suf, s = pre ++ sub ++ suf := by
  induction s with
  | nil =>
    simp only [goContains, List.isEmpty_iff]
    constructor
    · rintro rfl; exact ⟨[], [], rfl⟩
    · rintro ⟨pre, suf, h⟩
      rcases List.append_eq_nil.mp h.symm with ⟨h1, h2⟩
      exact (List.append_eq_nil.mp h1).2
  | cons a s ih =>
    simp only [goContains, Bool.or_eq_true, startsWith_iff, ih]
    constructor
    · rintro (⟨t, h⟩ | ⟨pre, suf, h⟩)
      · exact ⟨[], t, by simp [h]⟩
      · exact ⟨a :: pre, suf, by simp [h]⟩
    · rintro ⟨pre, suf, h⟩
      cases pre with
      | nil => exact Or.inl ⟨suf, by simpa using h⟩
      | cons a' pre' =>
        simp only [List.cons_append, List.cons.injEq] at h
        exact Or.inr ⟨pre', suf, h.2⟩

/-! ## Claim C2 — keyword filter -/

/-- Claim C2 counterexample: the eligible message with text
"Tailscale rocks" contains the watch word "tailscale" up to letter case
(the spec's case-insensitive notion holds), yet `readJetstreamMessage`
silently ignores it, because the source match `strings.Contains` is
case-sensitive. -/
theorem keywordFilter_not_caseInsensitive :
    specCaseInsensitiveContains (strBytes "Tailscale rocks") (strBytes "tailscale") = true
  ∧ ignoreMessageB
      { did := "did:plc:abc",
        commit := some { rkey := "k1", record := some { text := strBytes "Tailscale rocks" },
                         operation := "create" },
        kind := "commit" } = false
  ∧ readJetstreamMessage (strBytes "tailscale")
      { did := "did:plc:abc",
        commit := some { rkey := "k1", record := some { text := strBytes "Tailscale rocks" },
                         operation := "create" },
        kind := "commit" } = .ignored := by
  refine ⟨by decide, by decide, by decide⟩

/-- Claim C2 (amended): for every eligible event the keyword filter is a
case-sensitive substring match: the event is dispatched exactly when the
watch word occurs verbatim (byte-exact, same letter case) in record.text,
and is silently ignored otherwise. -/
theorem keywordFilter_caseSensitive (watchWord : List Nat) (m : BskyMessage)
    (h : ignoreMessageB m = false) :
    readJetstreamMessage watchWord m = .dispatched
      ↔ ∃ pre suf, recordText m = pre ++ watchWord ++ suf := by
  rw [← goContains_iff]
  unfold readJetstreamMessage
  rw [h]
  by_cases hc : goContains (recordText m) watchWord
  · simp [hc]
  · simp only [Bool.not_eq_true] at hc
    simp [hc]

/-- Witness for the amended C2 theorem at a concrete input. -/
theorem keywordFilter_caseSensitive_witness :
    readJetstreamMessage (strBytes "tailscale")
      { did := "did:plc:abc",
        commit := some { rkey := "k1", record := some { text := strBytes "i use tailscale daily" },
                         operation := "create" },
        kind := "commit" } = .dispatched :=
  (keywordFilter_caseSensitive (strBytes "tailscale") _ (by decide)).mpr
    ⟨strBytes "i use ", strBytes " daily", by decide⟩

/-! ## Claim C3 — feature resolution -/

/-- Claim C3: the claim says a Link feature yields that feature's own URI
and that the first recognized variant in feature order wins.  The code
diverges twice: `featureURI` switches on the feature's `URI` field rather
than its `$type`, so a Link feature carrying a real URI is unrecognized
and the fragment renders plain (first conjunct); and in the other markup
variant the tag branch does not break out of the loop, so a later link
feature overrides an earlier tag (second conjunct: the claim expects the
hashtag URL of the leading tag feature). -/
theorem featureResolution_bug :
    BskyTextFragment.featureURI
      { text := strBytes "tailscale",
        features := some [{ ftype := "app.bsky.richtext.facet#link",
                            uri := "https://tailscale.com/", did := "", tag := "" }] } = ""
  ∧ fragmentURILoop
      [{ ftype := "app.bsky.richtext.facet#tag", uri := "", did := "", tag := "vpn" },
       { ftype := "app.bsky.richtext.facet#link",
         uri := "https://example.com/", did := "", tag := "" }] ""
      = "https://example.com/" := by
  refine ⟨by decide, by decide⟩

/-! ## Claim C4 — login failure handling -/

/-- Claim C4 counterexample: with a successful websocket dial and bluesky
dial but a failed login, `websocketConnection` ends in `log.Fatal`
(process termination), not in an error returned to the supervisor's retry
loop, refuting the claim that a login failure is treated as a connection
error and is never fatal to the process. -/
theorem loginFailure_counterexample :
    websocketConnection (.ok ()) (.ok ()) (.error "bad app password") "eof"
      = ConnOutcome.fatalExit "login bsky: bad app password" := rfl

/-- Claim C4 (amended): a failure to log in to the Bluesky API backend
during a connection attempt terminates the whole process via `log.Fatal`
with the "login bsky:" context; it is not returned to the supervisor as a
retried connection error. -/
theorem loginFailure_fatal (e readLoopError : String) :
    websocketConnection (.ok ()) (.ok ()) (.error e) readLoopError
      = ConnOutcome.fatalExit ("login bsky: " ++ e) := rfl

/-! ## Claim C8 — endpoint rotation -/

/-- The rotation cursor before the nth dial attempt is `n` modulo the
endpoint count. -/
theorem wsAddressState_eq (n : Nat) : wsAddressState n = n % 4 := by
  induction n with
  | zero => rfl
  | succ n ih =>
    show (nextWSAddressStep (wsAddressState n)).2 = (n + 1) % 4
    rw [ih]
    show (if jetstreams.length ≤ n % 4 + 1 then 0 else n % 4 + 1) = (n + 1) % 4
    have hlen : jetstreams.length = 4 := rfl
    rw [hlen]
    split <;> omega

/-- Claim C8: with an override address every dial attempt uses it;
otherwise the nth dial attempt (0-based) uses the nth entry of the fixed
four-element public endpoint list in round-robin order, and consecutive
attempts never reuse an endpoint. -/
theorem nextWSAddress_rotation (addr : String) (n : Nat) :
    nextWSAddress addr n = (if addr = "" then jetstreams.getD (n % 4) "" else addr)
  ∧ (addr = "" → nextWSAddress addr (n + 1) ≠ nextWSAddress addr n) := by
  constructor
  · unfold nextWSAddress
    by_cases h : addr = ""
    · simp only [h, bne_self_eq_false, Bool.false_eq_true, if_false, if_true]
      show (nextWSAddressStep (wsAddressState n)).1 = jetstreams.getD (n % 4) ""
      rw [wsAddressState_eq]
      rfl
    · have hb : (addr != "") = true := by simpa using h
      rw [hb, if_pos rfl, if_neg h]
  · intro h
    subst h
    unfold nextWSAddress
    simp only [bne_self_eq_false, Bool.false_eq_true, if_false]
    show (nextWSAddressStep (wsAddressState (n + 1))).1
        ≠ (nextWSAddressStep (wsAddressState n)).1
    rw [wsAddressState_eq, wsAddressState_eq]
    have h4 : n % 4 = 0 ∨ n % 4 = 1 ∨ n % 4 = 2 ∨ n % 4 = 3 := by omega
    rcases h4 with h | h | h | h <;>
      · have h' : (n + 1) % 4 = (n % 4 + 1) % 4 := by omega
        rw [h', h]
        decide

/-- Witness for the C8 theorem at a concrete input: the sixth dial attempt
(no override) uses the second endpoint, and the seventh differs from it. -/
theorem nextWSAddress_rotation_witness :
    nextWSAddress "" 5 = "jetstream2.us-east.bsky.network"
  ∧ nextWSAddress "" 6 ≠ nextWSAddress "" 5 := by
  refine ⟨?_, (nextWSAddress_rotation "" 5).2 rfl⟩
  rw [(nextWSAddress_rotation "" 5).1]
  rfl

/-! ## Claim C9 — outbound timestamp -/

/-- Claim C9: the outbound webhook attachment carries a `ts` equal to the
record's parsed creation time expressed as epoch seconds (the `ts`
population is modelled from the spec; the source under src leaves the
declared field unset). -/
theorem sendToSlack_timestamp (m : BskyMessage) (imageURL : String)
    (profile : BskyProfile) (createdAtEpochSeconds : Int) :
    (sendToSlackAttachment m imageURL profile createdAtEpochSeconds).ts
      = toString createdAtEpochSeconds := rfl

/-! ## Claim C1 — staleness filter -/

/-- Claim C1: for every decoded event passing the eligibility filter, the
decoder parses record.createdAt and applies the 24-hour staleness filter:
an unparsable createdAt is a per-frame error; a parsed creation time more
than 24 hours before decode time is silently ignored; a younger event is
retained and handed to the keyword filter, which alone decides dispatch.
(The staleness stage is modelled from the spec; see
`readJetstreamMessageStale`.) -/
theorem stalenessFilter (parseRFC3339 : String → Option Int) (now : Int)
    (watchWord : List Nat) (m : BskyMessage) (h : ignoreMessageB m = false) :
    (parseRFC3339 (recordCreatedAt m) = none →
        readJetstreamMessageStale parseRFC3339 now watchWord m = .frameError)
  ∧ (∀ t, parseRFC3339 (recordCreatedAt m) = some t →
        (stalenessWindowSeconds < now - t →
            readJetstreamMessageStale parseRFC3339 now watchWord m = .ignored)
      ∧ (now - t ≤ stalenessWindowSeconds →
            readJetstreamMessageStale parseRFC3339 now watchWord m
              = if goContains (recordText m) watchWord then .dispatched
                else .ignored)) := by
  unfold readJetstreamMessageStale
  rw [h]
  simp only [Bool.false_eq_true, if_false]
  refine ⟨fun hp => by rw [hp], fun t hp => ?_⟩
  rw [hp]
  refine ⟨fun hstale => by simp [hstale], fun hfresh => by simp [not_lt.mpr hfresh]⟩

/-- Witness for the C1 theorem: a concrete eligible event whose parsed
creation time is 25 hours before decode time is silently ignored. -/
theorem stalenessFilter_witness :
    readJetstreamMessageStale (fun s => if s = "2026-01-01T00:00:00Z" then some 0 else none)
      (25 * 60 * 60) (strBytes "tailscale")
      { did := "did:plc:abc",
        commit := some { rkey := "k1",
                         record := some { text := strBytes "tailscale is neat",
                                          createdAt := "2026-01-01T00:00:00Z" },
                         operation := "create" },
        kind := "commit" } = .ignored :=
  ((stalenessFilter (fun s => if s = "2026-01-01T00:00:00Z" then some 0 else none)
      (25 * 60 * 60) (strBytes "tailscale") _ (by decide)).2 0 (by rfl)).1 (by decide)

/-! ## Claim C6 — overlap resolution -/

/-- Claim C6: during segmentation, a facet whose byteStart the cursor has
already passed (it overlaps a region consumed by an earlier sorted facet)
is skipped entirely: it contributes no fragment and leaves the cursor
unchanged, so the first-sorted facet wins. -/
theorem facetsLoop_skip_overlap (text : List Nat) (f : BskyFacet)
    (rest : List BskyFacet) (textCursor : Int)
    (h : f.index.byteStart < textCursor) :
    facetsLoop text (f :: rest) textCursor = facetsLoop text rest textCursor := by
  show (if textCursor < f.index.byteStart then _ else
        if f.index.byteStart < textCursor then _ else _) = _
  rw [if_neg (by omega), if_pos h]

/-- Witness for the C6 theorem: a facet starting at byte 1 is dropped when
the cursor already sits at byte 2. -/
theorem facetsLoop_skip_overlap_witness :
    facetsLoop (strBytes "abcd")
      [{ features := [{ ftype := "app.bsky.richtext.facet#tag", uri := "", did := "",
                        tag := "x" }],
         index := { byteEnd := 3, byteStart := 1 } }] 2
      = facetsLoop (strBytes "abcd") [] 2 :=
  facetsLoop_skip_overlap (strBytes "abcd") _ [] 2 (by decide)

/-! ## Claim C7 — whitespace-only facets -/

/-- Claim C7: a facet whose sliced text is whitespace-only (trims to
empty) is emitted as a fragment of exactly that byte slice with features
absent, whatever feature list the facet carried, and the loop then
continues past its byteEnd. -/
theorem facetsLoop_whitespace_facet (text : List Nat) (f : BskyFacet)
    (rest : List BskyFacet) (textCursor : Int) (fragmentText : List Nat)
    (hcur : textCursor = f.index.byteStart)
    (hlt : f.index.byteStart < f.index.byteEnd)
    (hslice : goSlice text f.index.byteStart f.index.byteEnd = some fragmentText)
    (hws : trimSpace fragmentText = []) :
    facetsLoop text (f :: rest) textCursor
      = (facetsLoop text rest f.index.byteEnd).map
          (fun tail => ({ text := fragmentText } : BskyTextFragment) :: tail) := by
  subst hcur
  simp only [facetsLoop]
  rw [if_neg (lt_irrefl _), if_neg (lt_irrefl _)]
  have hemit : emitFacet text f = some [{ text := fragmentText }] := by
    unfold emitFacet
    rw [if_pos hlt, hslice]
    simp [hws]
  rw [hemit]
  cases h' : facetsLoop text rest f.index.byteEnd <;> simp [h']

/-- Witness for the C7 theorem: the facet over the single space of "a b"
carries a tag feature, but its fragment has no features. -/
theorem facetsLoop_whitespace_facet_witness :
    facetsLoop (strBytes "a b")
      [{ features := [{ ftype := "app.bsky.richtext.facet#tag", uri := "", did := "",
                        tag := "x" }],
         index := { byteEnd := 2, byteStart := 1 } }] 1
      = (facetsLoop (strBytes "a b") [] 2).map
          (fun tail => ({ text := [32] } : BskyTextFragment) :: tail) :=
  facetsLoop_whitespace_facet (strBytes "a b") _ [] 1 [32]
    (by decide) (by decide) (by decide) (by decide)

/-! ## Segmentation algebra (claims C5 and C10) -/

/-- Adjacent byte slices glue back together: the slice `[a, b)` followed by
the tail from `b` is the tail from `a`. -/
theorem slice_glue (s : List Nat) (a b : Nat) (hab : a ≤ b) (hb : b ≤ s.length) :
    (s.take b).drop a ++ s.drop b = s.drop a := by
  conv_rhs => rw [← List.take_append_drop b s]
  rw [List.drop_append_of_le_length (by rw [List.length_take]; omega)]

/-- In-range Go slicing yields the take-drop byte run. -/
theorem goSlice_eq (s : List Nat) (a b : Int) (h0 : 0 ≤ a) (hab : a ≤ b)
    (hb : b ≤ (s.length : Int)) :
    goSlice s a b = some ((s.take b.toNat).drop a.toNat) := by
  unfold goSlice
  rw [if_pos ⟨h0, hab, hb⟩]

/-- For an in-range facet, `emitFacet` succeeds and the texts of its
emitted fragments concatenate to exactly the facet's byte slice (which is
empty for a zero-width facet). -/
theorem emitFacet_some (text : List Nat) (f : BskyFacet) (hv : ValidFacet text f) :
    ∃ here, emitFacet text f = some here ∧
      (here.map BskyTextFragment.text).flatten
        = (text.take f.index.byteEnd.toNat).drop f.index.byteStart.toNat := by
  obtain ⟨h0, hab, hb⟩ := hv
  by_cases hlt : f.index.byteStart < f.index.byteEnd
  · have hsl := goSlice_eq text f.index.byteStart f.index.byteEnd h0 hab hb
    by_cases hws :
        (trimSpace ((text.take f.index.byteEnd.toNat).drop f.index.byteStart.toNat) == [])
          = true
    · refine ⟨[{ text := (text.take f.index.byteEnd.toNat).drop f.index.byteStart.toNat }],
        ?_, by simp⟩
      unfold emitFacet
      rw [if_pos hlt]
      simp only [hsl]
      rw [if_pos hws]
    · refine ⟨[{ text := (text.take f.index.byteEnd.toNat).drop f.index.byteStart.toNat,
                 features := some f.features }], ?_, by simp⟩
      unfold emitFacet
      rw [if_pos hlt]
      simp only [hsl]
      rw [if_neg hws]
  · refine ⟨[], ?_, ?_⟩
    · unfold emitFacet
      rw [if_neg hlt]
    · simp only [List.map_nil, List.flatten_nil]
      rw [eq_comm]
      apply List.drop_eq_nil_of_le
      rw [List.length_take]
      omega

/-- Step equation: past the last facet with text remaining, the trailing
plain fragment is emitted. -/
theorem facetsLoop_nil_lt (text : List Nat) (c : Int) (h : c < (text.length : Int))
    (s : List Nat) (hs : goSlice text c (text.length : Int) = some s) :
    facetsLoop text [] c = some [{ text := s }] := by
  unfold facetsLoop
  rw [if_pos h]
  simp only [hs]

/-- Step equation: past the last facet with the cursor at or past the end
of the text, nothing more is emitted. -/
theorem facetsLoop_nil_ge (text : List Nat) (c : Int) (h : ¬ c < (text.length : Int)) :
    facetsLoop text [] c = some [] := by
  unfold facetsLoop
  rw [if_neg h]

/-- Step equation: a facet strictly ahead of the cursor first emits the
plain gap fragment, then its own fragments, then continues from its
byteEnd. -/
theorem facetsLoop_cons_gap (text : List Nat) (f : BskyFacet) (rest : List BskyFacet)
    (c : Int) (h1 : c < f.index.byteStart) (gap : List Nat)
    (here tail : List BskyTextFragment)
    (hgap : goSlice text c f.index.byteStart = some gap)
    (hhere : emitFacet text f = some here)
    (htail : facetsLoop text rest f.index.byteEnd = some tail) :
    facetsLoop text (f :: rest) c
      = some (({ text := gap } : BskyTextFragment) :: here ++ tail) := by
  simp only [facetsLoop]
  rw [if_pos h1]
  simp only [hgap, hhere, htail]

/-- Step equation: a facet starting exactly at the cursor emits its own
fragments and continues from its byteEnd. -/
theorem facetsLoop_cons_at (text : List Nat) (f : BskyFacet) (rest : List BskyFacet)
    (c : Int) (h1 : ¬ c < f.index.byteStart) (h2 : ¬ f.index.byteStart < c)
    (here tail : List BskyTextFragment)
    (hhere : emitFacet text f = some here)
    (htail : facetsLoop text rest f.index.byteEnd = some tail) :
    facetsLoop text (f :: rest) c = some (here ++ tail) := by
  simp only [facetsLoop]
  rw [if_neg h1, if_neg h2]
  simp only [hhere, htail]

/-- Step equation: a facet whose byteStart the cursor has passed is
skipped (shared helper; claim C6 is stated over it below). -/
theorem facetsLoop_cons_skip (text : List Nat) (f : BskyFacet) (rest : List BskyFacet)
    (c : Int) (h : f.index.byteStart < c) :
    facetsLoop text (f :: rest) c = facetsLoop text rest c := by
  simp only [facetsLoop]
  rw [if_neg (by omega), if_pos h]

/-- Segmentation is total on in-range facets, sorted or not: the loop
never slices out of range (never panics in Go terms). -/
theorem facetsLoop_some (text : List Nat) :
    ∀ (facets : List BskyFacet) (textCursor : Int),
      0 ≤ textCursor → textCursor ≤ (text.length : Int) →
      (∀ f ∈ facets, ValidFacet text f) →
      ∃ frags, facetsLoop text facets textCursor = some frags
  | [], c => fun h0 hl _ => by
    by_cases h : c < (text.length : Int)
    · exact ⟨_, facetsLoop_nil_lt text c h _ (goSlice_eq text _ _ h0 (le_of_lt h) le_rfl)⟩
    · exact ⟨_, facetsLoop_nil_ge text c h⟩
  | f :: rest, c => fun h0 hl hv => by
    obtain ⟨hs0, hse, hel⟩ := hv f (List.mem_cons_self _ _)
    have hvrest : ∀ g ∈ rest, ValidFacet text g :=
      fun g hg => hv g (List.mem_cons_of_mem _ hg)
    obtain ⟨here, hhere, _⟩ := emitFacet_some text f ⟨hs0, hse, hel⟩
    by_cases h1 : c < f.index.byteStart
    · obtain ⟨tail, htail⟩ := facetsLoop_some text rest f.index.byteEnd (by omega) hel hvrest
      exact ⟨_, facetsLoop_cons_gap text f rest c h1 _ here tail
        (goSlice_eq text _ _ h0 (le_of_lt h1) (by omega)) hhere htail⟩
    · by_cases h2 : f.index.byteStart < c
      · obtain ⟨frags, hf⟩ := facetsLoop_some text rest c h0 hl hvrest
        exact ⟨frags, (facetsLoop_cons_skip text f rest c h2).trans hf⟩
      · obtain ⟨tail, htail⟩ := facetsLoop_some text rest f.index.byteEnd (by omega) hel hvrest
        exact ⟨_, facetsLoop_cons_at text f rest c h1 h2 here tail hhere htail⟩

/-- For valid non-overlapping facets ahead of the cursor, the loop
succeeds and its fragment texts concatenate to the text's tail from the
cursor. -/
theorem facetsLoop_flatten (text : List Nat) :
    ∀ (facets : List BskyFacet) (textCursor : Int),
      0 ≤ textCursor → textCursor ≤ (text.length : Int) →
      (∀ f ∈ facets, ValidFacet text f) →
      List.Chain' (fun a b => a.index.byteEnd ≤ b.index.byteStart) facets →
      (∀ f ∈ facets.head?, textCursor ≤ f.index.byteStart) →
      ∃ frags, facetsLoop text facets textCursor = some frags ∧
        (frags.map BskyTextFragment.text).flatten = text.drop textCursor.toNat
  | [], c => fun h0 hl _ _ _ => by
    by_cases h : c < (text.length : Int)
    · refine ⟨_, facetsLoop_nil_lt text c h _ (goSlice_eq text _ _ h0 (le_of_lt h) le_rfl), ?_⟩
      simp only [List.map_cons, List.map_nil, List.flatten_cons, List.flatten_nil,
        List.append_nil]
      rw [Int.toNat_ofNat, List.take_length]
    · have hc : c = (text.length : Int) := le_antisymm hl (not_lt.mp h)
      refine ⟨[], facetsLoop_nil_ge text c h, ?_⟩
      simp only [List.map_nil, List.flatten_nil]
      rw [eq_comm]
      apply List.drop_eq_nil_of_le
      omega
  | f :: rest, c => fun h0 hl hv hch hhead => by
    obtain ⟨hs0, hse, hel⟩ := hv f (List.mem_cons_self _ _)
    have hvrest : ∀ g ∈ rest, ValidFacet text g :=
      fun g hg => hv g (List.mem_cons_of_mem _ hg)
    have hcs : c ≤ f.index.byteStart := hhead f rfl
    obtain ⟨here, hhere, htexts⟩ := emitFacet_some text f ⟨hs0, hse, hel⟩
    obtain ⟨tail, htail, hflat⟩ := facetsLoop_flatten text rest f.index.byteEnd
      (by omega) hel hvrest hch.tail (List.chain'_cons'.mp hch).1
    by_cases h1 : c < f.index.byteStart
    · refine ⟨_, facetsLoop_cons_gap text f rest c h1 _ here tail
        (goSlice_eq text _ _ h0 (le_of_lt h1) (by omega)) hhere htail, ?_⟩
      simp only [List.map_cons, List.map_append, List.flatten_cons, List.flatten_append,
        htexts, hflat]
      rw [List.append_assoc]
      rw [slice_glue text f.index.byteStart.toNat f.index.byteEnd.toNat
        (by omega) (by omega)]
      exact slice_glue text c.toNat f.index.byteStart.toNat (by omega) (by omega)
    · have hceq : c = f.index.byteStart := le_antisymm hcs (not_lt.mp h1)
      refine ⟨_, facetsLoop_cons_at text f rest c h1 (by omega) here tail hhere htail, ?_⟩
      simp only [List.map_append, List.flatten_append, htexts, hflat]
      rw [hceq]
      exact slice_glue text f.index.byteStart.toNat f.index.byteEnd.toNat
        (by omega) (by omega)

/-- Inserting a facet whose byteStart is at most the head's start keeps it
in front. -/
theorem insertFacet_head_le (f : BskyFacet) (rest : List BskyFacet)
    (h : ∀ g ∈ rest.head?, f.index.byteStart ≤ g.index.byteStart) :
    insertFacet f rest = f :: rest := by
  cases rest with
  | nil => rfl
  | cons g t =>
    unfold insertFacet
    rw [if_pos (h g rfl)]

/-- The stable sort leaves an already byteStart-sorted facet list
unchanged. -/
theorem sortFacets_eq_self (facets : List BskyFacet)
    (h : List.Chain' (fun a b : BskyFacet => a.index.byteStart ≤ b.index.byteStart) facets) :
    sortFacets facets = facets := by
  induction facets with
  | nil => rfl
  | cons f rest ih =>
    have h' := List.chain'_cons'.mp h
    unfold sortFacets
    rw [ih h'.2]
    exact insertFacet_head_le f rest h'.1

/-- Everything in an insertion came from the inserted element or the
list. -/
theorem mem_insertFacet {x f : BskyFacet} :
    ∀ {l : List BskyFacet}, x ∈ insertFacet f l → x = f ∨ x ∈ l
  | [] => by
    intro hx
    simp only [insertFacet, List.mem_singleton] at hx
    exact Or.inl hx
  | g :: t => by
    unfold insertFacet
    split
    · intro hx
      rcases List.mem_cons.mp hx with h | h
      · exact Or.inl h
      · exact Or.inr h
    · intro hx
      rcases List.mem_cons.mp hx with h | h
      · exact Or.inr (List.mem_cons.mpr (Or.inl h))
      · rcases mem_insertFacet h with h' | h'
        · exact Or.inl h'
        · exact Or.inr (List.mem_cons.mpr (Or.inr h'))

/-- The sorted facet list has no facets beyond the original ones. -/
theorem mem_sortFacets {x : BskyFacet} :
    ∀ {l : List BskyFacet}, x ∈ sortFacets l → x ∈ l
  | [] => fun h => h
  | f :: t => fun h => by
    unfold sortFacets at h
    rcases mem_insertFacet h with h' | h'
    · exact h' ▸ List.mem_cons_self _ _
    · exact List.mem_cons_of_mem _ (mem_sortFacets h')

/-- Valid facets chained by byteEnd-before-byteStart are in particular
sorted by byteStart. -/
theorem chain_byteStart (text : List Nat) :
    ∀ (facets : List BskyFacet), (∀ f ∈ facets, ValidFacet text f) →
      List.Chain' (fun a b => a.index.byteEnd ≤ b.index.byteStart) facets →
      List.Chain' (fun a b : BskyFacet => a.index.byteStart ≤ b.index.byteStart) facets
  | [] => fun _ _ => List.chain'_nil
  | f :: rest => fun hv hch => by
    rw [List.chain'_cons'] at hch ⊢
    refine ⟨?_, chain_byteStart text rest (fun g hg => hv g (List.mem_cons_of_mem _ hg))
      hch.2⟩
    intro g hg
    exact le_trans (hv f (List.mem_cons_self _ _)).2.1 (hch.1 g hg)

/-- With no facets, segmentation returns the whole text as one plain
fragment, or nothing at all when the text is empty. -/
theorem facetsLoop_nil_zero (text : List Nat) :
    facetsLoop text [] 0 = some (if text.isEmpty then [] else [{ text := text }]) := by
  cases text with
  | nil => rfl
  | cons a t =>
    have h : (0 : Int) < (((a :: t).length : Nat) : Int) := by
      exact_mod_cast (a :: t).length.pos_of_ne_zero (by simp)
    rw [facetsLoop_nil_lt (a :: t) 0 h _ (goSlice_eq _ _ _ le_rfl (le_of_lt h) le_rfl)]
    simp

/-- With no facets, facetsToFragments returns the whole text as a single
plain fragment (or no fragments for empty text) and a nil error. -/
theorem facetsToFragments_noFacets (m : BskyMessage) (h : recordFacets m = []) :
    facetsToFragments m
      = some ((if (recordText m).isEmpty then [] else [{ text := recordText m }]), none) := by
  unfold facetsToFragments
  rw [h]
  have hs : sortFacets [] = ([] : List BskyFacet) := rfl
  rw [hs, facetsLoop_nil_zero]

/-! ## Claim C5 — segmentation round trip -/

/-- Claim C5: for every valid, non-overlapping, pre-sorted facet list, the
texts of the fragments returned by segmentation concatenate, in output
order, to exactly the original text; in particular with an empty facet
list the output is one whole-text plain fragment, or no fragments when
the text is empty. -/
theorem facetsToFragments_roundtrip (m : BskyMessage)
    (hv : ∀ f ∈ recordFacets m, ValidFacet (recordText m) f)
    (hch : List.Chain' (fun a b => a.index.byteEnd ≤ b.index.byteStart) (recordFacets m)) :
    (∃ frags, facetsToFragments m = some (frags, none) ∧
        (frags.map BskyTextFragment.text).flatten = recordText m)
  ∧ (recordFacets m = [] →
      facetsToFragments m
        = some ((if (recordText m).isEmpty then [] else [{ text := recordText m }]),
            none)) := by
  constructor
  · have hsorted := sortFacets_eq_self (recordFacets m)
      (chain_byteStart (recordText m) (recordFacets m) hv hch)
    obtain ⟨frags, hf, hflat⟩ := facetsLoop_flatten (recordText m) (recordFacets m) 0
      le_rfl (by omega) hv hch
      (fun f hh => (hv f (List.mem_of_mem_head? hh)).1)
    refine ⟨frags, ?_, ?_⟩
    · unfold facetsToFragments
      rw [hsorted, hf]
    · rw [hflat]
      simp
  · intro h
    exact facetsToFragments_noFacets m h

/-- Witness for the C5 theorem: on a concrete text with one sorted
in-range facet, the fragment texts concatenate back to the text. -/
theorem facetsToFragments_roundtrip_witness :
    ∃ frags, facetsToFragments exampleSortedMessage = some (frags, none) ∧
      (frags.map BskyTextFragment.text).flatten = strBytes "hi tailscale!" := by
  obtain ⟨frags, h1, h2⟩ := (facetsToFragments_roundtrip exampleSortedMessage
    (by decide) (List.chain'_singleton _)).1
  exact ⟨frags, h1, h2⟩

/-! ## Claim C10 — segmentation safety -/

/-- Claim C10: for every message whose facets all satisfy
0 ≤ byteStart ≤ byteEnd ≤ len(text), segmentation performs only in-range
slicing: it always returns (never panics) with a nil error result, and the
error branch of its caller bskyMessageToSlackMarkup is unreachable, which
therefore also returns with a nil error. -/
theorem segmentation_safe (m : BskyMessage)
    (hv : ∀ f ∈ recordFacets m, ValidFacet (recordText m) f) :
    (∃ frags, facetsToFragments m = some (frags, none))
  ∧ (∃ markup, bskyMessageToSlackMarkup m = some (markup, none)) := by
  obtain ⟨frags, hf⟩ := facetsLoop_some (recordText m) (sortFacets (recordFacets m)) 0
    le_rfl (by omega) (fun f hfm => hv f (mem_sortFacets hfm))
  have hfrag : facetsToFragments m = some (frags, none) := by
    unfold facetsToFragments
    rw [hf]
  refine ⟨⟨frags, hfrag⟩, ⟨(frags.map renderFragment).flatten, ?_⟩⟩
  unfold bskyMessageToSlackMarkup
  rw [hfrag]

/-- Witness for the C10 theorem: even on unsorted, overlapping (but
in-range) facets, the markup pipeline returns with a nil error. -/
theorem segmentation_safe_witness :
    ∃ markup, bskyMessageToSlackMarkup exampleUnsortedMessage = some (markup, none) :=
  (segmentation_safe exampleUnsortedMessage (by decide)).2

end BskyWebhook
